import Mathlib

/-!
Verification of the expert-panel chatbot (harukaeru/expert_ai).

The repository contains four near-identical variants (chatbot.py …
chatbot4.py) of a fan-out / fan-in "panel of experts" pipeline:
a question is sent to every registered expert persona through a model
invoker, the results are assembled into an ordered mapping, formatted
into a canonical prompt block and fed to one synthesis invoker call.

This file shallowly embeds the orchestration core of those variants:
registries are ordered association lists (Python dicts preserve
insertion order), the model invoker is an abstract function that can
fail (`Except`), `asyncio.gather` is modelled by an explicit completion
schedule over task indices with results reassembled in task-submission
order, and the Streamlit session import/export plumbing is modelled at
the JSON-value level.
-/

set_option maxHeartbeats 1000000
set_option maxRecDepth 8192

namespace ExpertAi

/-- Errors that a modelled Python execution can surface: a failing model
invoker call (an exception raised by `LLMChain.arun`), a dictionary
`KeyError`, or a `TypeError` from subscripting a non-dict value. -/
inductive Err where
  | invokerError (msg : String)
  | keyError (key : String)
  | typeError (msg : String)
deriving DecidableEq, Repr

/-- Observable call events of one panel invocation: one model-invoker
call per expert, and the single synthesis call. -/
inductive Ev where
  | expertCall (id : String)
  | synthCall
deriving DecidableEq, Repr

/-- Discriminator for `Ev.expertCall`. -/
def Ev.isExpert : Ev → Bool
  | .expertCall _ => true
  | .synthCall => false

/-- Discriminator for `Ev.synthCall`. -/
def Ev.isSynth : Ev → Bool
  | .expertCall _ => false
  | .synthCall => true

/-- Python `sep.join(xs)`: empty for `[]`, the single element for `[x]`,
and elements interleaved with `sep` otherwise. -/
def pyJoin (sep : String) : List String → String
  | [] => ""
  | [x] => x
  | x :: y :: rest => x ++ sep ++ pyJoin sep (y :: rest)

/-- Python `str.upper()`: uppercase every character (agrees with
`Char.toUpper` on the ASCII identifiers the registries use). -/
def pyUpper (s : String) : String :=
  String.mk (s.data.map Char.toUpper)

/-- The opinion-block formatter shared by all four variants:
`"\n\n".join(f"{expert_id.upper()}の意見:\n{opinion}" for ...)` over the
collected opinions in dict (registration) order. -/
def formatOpinions (ops : List (String × String)) : String :=
  pyJoin "\n\n" (ops.map fun p => pyUpper p.1 ++ "の意見:\n" ++ p.2)

/-- Text of the summary prompt template before `{original_question}`
(chatbot.py / chatbot3.py `_initialize_summary_chain`). -/
def summaryTemplatePre : String :=
  "\n        以下は異なる専門家から提供された意見です。これらの意見を統合し、バランスの取れた包括的な結論を導き出してください。\n        \n        元の質問/トピック: "

/-- Text of the summary prompt template between `{original_question}`
and `{expert_opinions}`. -/
def summaryTemplateMid : String :=
  "\n        \n        専門家の意見:\n        "

/-- Text of the summary prompt template after `{expert_opinions}`. -/
def summaryTemplatePost : String :=
  "\n        \n        統合された結論:\n        1. 主な合意点\n        2. 重要な懸念事項\n        3. 推奨されるアクション\n        4. 追加で検討が必要な点\n        \n        結論:\n        "

/-- Instantiation of the summary `PromptTemplate`: the question
is substituted for `{original_question}` and the formatted opinions for
`{expert_opinions}`. -/
def buildSummaryPrompt (q ops : String) : String :=
  summaryTemplatePre ++ q ++ summaryTemplateMid ++ ops ++ summaryTemplatePost

/-- The seed expert registry of chatbot.py / chatbot2.py / chatbot3.py
(`self.experts` resp. `st.session_state.experts`), in source order. -/
def defaultExperts : List (String × String) :=
  [("business_analyst", "ビジネスアナリスト。市場分析、収益性、ビジネス戦略の観点から分析を行う。"),
   ("tech_expert", "技術専門家。技術的な実現可能性、必要なリソース、開発期間について分析を行う。"),
   ("risk_manager", "リスクマネージャー。法的リスク、セキュリティリスク、運用リスクを評価する。"),
   ("customer_advocate", "カスタマーアドボケイト。顧客視点での価値、使いやすさ、需要を評価する。")]

/-! ## Model of `asyncio.gather`

`asyncio.gather(*tasks)` runs the tasks concurrently; completions may
happen in any order, but the returned list is in task-submission order.
We model execution by an explicit completion schedule: a list of task
indices in completion order.  `runSched` produces the completion log
(index, result) in that order; `gatherAssemble` is gather's reassembly
of the results in submission order. -/

/-- Completion log of the scheduled tasks: for each index in the
schedule (completion order) the pair of the index and that task's
result.  Indices outside the task list are ignored. -/
def runSched (tasks : List α) (sched : List Nat) : List (Nat × α) :=
  sched.filterMap fun i => (tasks.get? i).map fun r => (i, r)

/-- Reassembly step of `asyncio.gather`: results are returned in
task-submission order, looking each index up in the completion log. -/
def gatherAssemble (n : Nat) (log : List (Nat × α)) : List α :=
  (List.range n).filterMap fun i => (log.find? fun p => p.1 == i).map Prod.snd

/-- Model of `asyncio.gather(*tasks)` under a given completion schedule. -/
def asyncGather (tasks : List α) (sched : List Nat) : List α :=
  gatherAssemble tasks.length (runSched tasks sched)

/-- chatbot3.py `get_integrated_response`, collection phase (lines
81-89): one task per expert in registration order, gathered, then
`dict(zip(self.experts.keys(), opinions))`.  The invoker is total here
(the failure-free execution); `sched` is the completion schedule. -/
def collect3 (inv : String → String → String) (experts : List (String × String))
    (q : String) (sched : List Nat) : List (String × String) :=
  (experts.map Prod.fst).zip (asyncGather (experts.map fun p => inv p.2 q) sched)

/-- chatbot.py `get_expert_opinions` (lines 89-100): a sequential loop
awaiting each expert in turn and inserting `opinions[expert_id] =
response` into a dict, hence registration order. -/
def getExpertOpinions1 (inv : String → String → String)
    (experts : List (String × String)) (q : String) : List (String × String) :=
  experts.map fun p => (p.1, inv p.2 q)

/-! ## Failure-aware pipeline (chatbot3.py) -/

/-- Model of `asyncio.gather` over fallible tasks without `return_exceptions`:
if every task succeeds the list of results is returned; if any raises,
the exception propagates to the awaiter (which of several concurrent
exceptions wins depends on completion order — this model reports the
first in submission order; the theorems below use only its existence). -/
def gatherE : List (Except Err α) → Except Err (List α)
  | [] => .ok []
  | .error e :: _ => .error e
  | .ok a :: rest => (gatherE rest).map (a :: ·)

/-- The collection phase of chatbot3.py `get_integrated_response` with a
fallible invoker: the per-expert tasks (no try/except in
`get_expert_opinion`, lines 67-75) gathered into the zipped opinion
dict. -/
def collectE (inv : String → String → Except Err String)
    (experts : List (String × String)) (q : String) :
    Except Err (List (String × String)) :=
  (gatherE (experts.map fun p => inv p.2 q)).map
    fun opinions => (experts.map Prod.fst).zip opinions

/-- chatbot3.py `get_integrated_response` (lines 77-103) end to end,
returning the result together with the trace of invoker calls: all
per-expert tasks are dispatched (one `expertCall` each, registration
order), and the single `summary_chain.arun` call (`synthCall`) happens
only on the success path, after the gather completes, on the formatted
opinions and the original question. -/
def run3 (inv : String → String → Except Err String)
    (synthInv : String → Except Err String)
    (experts : List (String × String)) (q : String) :
    Except Err (String × List (String × String)) × List Ev :=
  let calls := experts.map fun p => Ev.expertCall p.1
  match collectE inv experts q with
  | .error e => (.error e, calls)
  | .ok expertOpinions =>
    match synthInv (buildSummaryPrompt q (formatOpinions expertOpinions)) with
    | .error e => (.error e, calls ++ [Ev.synthCall])
    | .ok finalResponse => (.ok (finalResponse, expertOpinions), calls ++ [Ev.synthCall])

/-- chatbot.py `get_expert_opinions` (lines 89-100) with a fallible
invoker: the loop awaits each expert's `arun` in turn, so an exception
raised by one expert aborts the loop — the experts after it are never
called.  Returns the collected opinions (or the raised error) together
with the trace of invoker calls actually dispatched. -/
def collect1 (inv : String → String → Except Err String) (q : String) :
    List (String × String) → Except Err (List (String × String)) × List Ev
  | [] => (.ok [], [])
  | p :: rest =>
    match inv p.2 q with
    | .error e => (.error e, [Ev.expertCall p.1])
    | .ok v =>
      match collect1 inv q rest with
      | (.error e, tr) => (.error e, Ev.expertCall p.1 :: tr)
      | (.ok vs, tr) => (.ok ((p.1, v) :: vs), Ev.expertCall p.1 :: tr)

/-- chatbot.py `get_integrated_response` (lines 102-121) end to end:
the sequential collection loop, then the formatted opinions and the
single `summary_chain.arun` call, whose dispatch (`synthCall`) happens
only if the collection loop finished. -/
def run1 (inv : String → String → Except Err String)
    (synthInv : String → Except Err String)
    (experts : List (String × String)) (q : String) : Except Err String × List Ev :=
  match collect1 inv q experts with
  | (.error e, tr) => (.error e, tr)
  | (.ok expertOpinions, tr) =>
    match synthInv (buildSummaryPrompt q (formatOpinions expertOpinions)) with
    | .error e => (.error e, tr ++ [Ev.synthCall])
    | .ok finalResponse => (.ok finalResponse, tr ++ [Ev.synthCall])

/-! ## chatbot3.py chat-input handler -/

/-- Outcome of one pass through chatbot3.py `main`'s chat-input block:
nothing happened (falsy input), an `st.error` message was shown and the
handler returned, the pipeline raised, or a synthesized answer was
produced. -/
inductive Outcome where
  | noInput
  | uiError (msg : String)
  | failed (e : Err)
  | answered (response : String) (opinions : List (String × String))
deriving Repr

/-- Outcomes that surface an error to the user. -/
def Outcome.isError : Outcome → Bool
  | .uiError _ => true
  | .failed _ => true
  | _ => false

/-- chatbot3.py `main` lines 195-223: `if prompt := st.chat_input(...)`
(falsy — absent or empty — input skips the whole block), then the API
key guard, then the empty-registry guard
(`st.error("少なくとも1人の専門家を設定してください！")`), then
`get_integrated_response`.  Returns the outcome and the invoker-call
trace. -/
def chatHandler3 (apiKey : String) (experts : List (String × String))
    (inv : String → String → Except Err String)
    (synthInv : String → Except Err String)
    (promptIn : Option String) : Outcome × List Ev :=
  match promptIn with
  | none => (.noInput, [])
  | some prompt =>
    if prompt = "" then (.noInput, [])
    else if apiKey = "" then (.uiError "OpenAI APIキーを設定してください！", [])
    else if experts = [] then (.uiError "少なくとも1人の専門家を設定してください！", [])
    else
      match run3 inv synthInv experts prompt with
      | (.error e, tr) => (.failed e, tr)
      | (.ok (r, ops), tr) => (.answered r ops, tr)

/-! ## JSON-level model of snapshot import/export

The Streamlit variants serialize the session registries with
`json.dumps` and read uploads back with `json.load`; we model the
snapshots at the JSON value level (objects are ordered key/value lists,
as Python dicts and `json` preserve insertion order; numbers are
rationals, which covers every decimal literal the config uses). -/

/-- JSON values.  Objects keep their fields in document order. -/
inductive Json where
  | str (s : String)
  | num (q : Rat)
  | bool (b : Bool)
  | null
  | arr (elems : List Json)
  | obj (fields : List (String × Json))

/-- Dict-key membership: whether an object value has the field `k`.
Used on object values only; Python's general `in` operator — which
chatbot4's config import applies to the raw parsed document, whatever
its shape — is modelled by `Json.pyContains` below. -/
def Json.hasKey : Json → String → Bool
  | .obj fields, k => fields.any fun p => p.1 == k
  | _, _ => false

/-- Whether the character pattern matches at the head of the list. -/
def listHeadMatches : List Char → List Char → Bool
  | [], _ => true
  | _ :: _, [] => false
  | a :: as, b :: bs => a == b && listHeadMatches as bs

/-- Whether the character pattern occurs contiguously in the list. -/
def listContainsSeq (pat : List Char) : List Char → Bool
  | [] => pat.isEmpty
  | c :: cs => listHeadMatches pat (c :: cs) || listContainsSeq pat cs

/-- Python substring membership `k in s` on strings. -/
def pyInStr (k s : String) : Bool :=
  listContainsSeq k.data s.data

/-- Python `k in x` on a parsed JSON document: key membership for a
dict, element membership for a list, substring membership for a string,
and a `TypeError` for non-container values (caught by the import's
`except Exception` clause). -/
def Json.pyContains : Json → String → Except Err Bool
  | .obj fields, k => .ok (fields.any fun p => p.1 == k)
  | .arr elems, k =>
    .ok (elems.any fun e => match e with | .str s => s == k | _ => false)
  | .str s, k => .ok (pyInStr k s)
  | _, _ => .error (.typeError "argument is not iterable")

/-- Python `d[key]` on a parsed JSON value: the field's value, a
`KeyError` when an object lacks the key, a `TypeError` when the value is
not an object. -/
def Json.getItem : Json → String → Except Err Json
  | .obj fields, k =>
    match fields.find? (fun p => p.1 == k) with
    | some p => .ok p.2
    | none => .error (.keyError k)
  | _, _ => .error (.typeError "value is not subscriptable by string key")

/-- chatbot3.py `expert_manager` export (line 153): `json.dumps` of the
identifier → description dict, i.e. a JSON object of strings in
registration order. -/
def exportSnapshot3 (experts : List (String × String)) : Json :=
  .obj (experts.map fun p => (p.1, .str p.2))

/-- Reading a parsed JSON value back as the `dict[str, str]` registry
shape chatbot3 stores in `st.session_state.experts`: defined exactly
when every field is a string. -/
def asStrEntries : List (String × Json) → Option (List (String × String))
  | [] => some []
  | (k, .str v) :: rest => (asStrEntries rest).map ((k, v) :: ·)
  | _ => none

/-- Application of `asStrEntries` to a whole JSON document (must be an object). -/
def asStrDict : Json → Option (List (String × String))
  | .obj fields => asStrEntries fields
  | _ => none

/-- One chatbot4.py expert entry: the three fields every registry entry
created by `init_session_state` / the add-expert form carries. -/
structure ExpertInfo where
  description : String
  avatar : String
  name : String
deriving DecidableEq, Repr

/-- chatbot4.py export of one expert entry: the field dict in the order
the source writes it (`description`, `avatar`, `name`). -/
def exportExpert4 (e : ExpertInfo) : Json :=
  .obj [("description", .str e.description), ("avatar", .str e.avatar),
        ("name", .str e.name)]

/-- chatbot4.py `expert_manager` export (line 263): `json.dumps` of the
identifier → field-dict registry. -/
def exportSnapshot4 (experts : List (String × ExpertInfo)) : Json :=
  .obj (experts.map fun p => (p.1, exportExpert4 p.2))

/-- Reading one parsed entry back as an `ExpertInfo` field dict. -/
def asExpertInfo : Json → Option ExpertInfo
  | .obj [("description", .str d), ("avatar", .str a), ("name", .str n)] =>
    some ⟨d, a, n⟩
  | _ => none

/-- Reading a parsed JSON object's fields back as the chatbot4 registry
shape. -/
def asInfoEntries : List (String × Json) → Option (List (String × ExpertInfo))
  | [] => some []
  | (k, v) :: rest =>
    match asExpertInfo v with
    | some info => (asInfoEntries rest).map ((k, info) :: ·)
    | none => none

/-- Application of `asInfoEntries` to a whole JSON document (must be an object). -/
def asInfoDict : Json → Option (List (String × ExpertInfo))
  | .obj fields => asInfoEntries fields
  | _ => none

/-- Expert-settings import of chatbot3.py lines 162-169 (identical in
chatbot4.py lines 272-279): `json.load` the upload and assign it to
`st.session_state.experts` wholesale — no structural validation at all.
`parsed = none` models a `json.load` exception, caught by the
`except` clause (`st.error("インポートエラー…")`, registry untouched).
Returns the registry afterwards and the error message, if any. -/
def importExperts (old : Json) (parsed : Option Json) : Json × Option String :=
  match parsed with
  | some imported => (imported, none)
  | none => (old, some "インポートエラー")

/-- The chatbot3.py seed registry as the session-state JSON value. -/
def seedExpertsJson : Json := exportSnapshot3 defaultExperts

/-- The chatbot4.py seed model config (`init_session_state` lines
132-136): `{"model_name": "gpt-4o-mini", "temperature": 0.7}`. -/
def seedModelConfig : Json :=
  .obj [("model_name", .str "gpt-4o-mini"), ("temperature", .num (7/10))]

/-- Model-settings import of chatbot4.py lines 197-207: `json.load` the
upload; `if "model_name" in imported_config and "temperature" in
imported_config` — Python's generic `in` on whatever document was
parsed (dict keys, list elements, string substrings; `TypeError` on
anything else, caught by the surrounding `except Exception`) — then the
whole parsed value replaces `st.session_state.model_config` (`true` =
success message), otherwise `st.error` and the config is untouched.
No type or range check is performed on either value.  `parsed = none`
models a `json.load` exception (caught, config untouched).  The `and`
short-circuits, modelled by the nested match. -/
def importModelConfig (old : Json) (parsed : Option Json) : Json × Bool :=
  match parsed with
  | none => (old, false)
  | some imported =>
    match imported.pyContains "model_name" with
    | .error _ => (old, false)
    | .ok false => (old, false)
    | .ok true =>
      match imported.pyContains "temperature" with
      | .error _ => (old, false)
      | .ok false => (old, false)
      | .ok true => (imported, true)

/-! ## chatbot4.py construction and pipeline -/

/-- chatbot4.py `ExpertPanelChatbot.__init__` line 16:
`self.experts = {k: v["description"] for k, v in experts.items()}` over
the raw (possibly imported, unvalidated) registry; the first entry whose
value lacks the `"description"` key raises, aborting construction. -/
def initExperts4 : List (String × Json) → Except Err (List (String × Json))
  | [] => .ok []
  | (k, v) :: rest =>
    match v.getItem "description" with
    | .error e => .error e
    | .ok d => (initExperts4 rest).map ((k, d) :: ·)

/-- One chatbot4.py panel invocation (`main` lines 336-385): construct
`ExpertPanelChatbot(api_key, experts, model_config)` — which runs the
description comprehension — then loop over the experts calling
`get_expert_opinion(expert_id, expert_info["description"], prompt, …)`
and finally `get_integrated_response`.  If construction raises, no
invoker call is ever made. -/
def run4 (inv : Json → String → Except Err String)
    (synthInv : String → Except Err String)
    (experts : List (String × Json)) (q : String) : Except Err String × List Ev :=
  match initExperts4 experts with
  | .error e => (.error e, [])
  | .ok _ =>
    let calls := experts.map fun p => Ev.expertCall p.1
    match gatherE (experts.map fun p => (p.2.getItem "description").bind fun d => inv d q) with
    | .error e => (.error e, calls)
    | .ok opinions =>
      let expertOpinions := (experts.map Prod.fst).zip opinions
      match synthInv (buildSummaryPrompt q (formatOpinions expertOpinions)) with
      | .error e => (.error e, calls ++ [Ev.synthCall])
      | .ok finalResponse => (.ok finalResponse, calls ++ [Ev.synthCall])

/-! ## Launch/finish traces for the concurrency structure

For the concurrency claim the `Ev` granularity is too coarse: we record
separate launch (`start`) and completion (`finish`) events per expert
call.  A fan-out is concurrent when every launch precedes every
completion (all tasks are in flight together); a sequential loop
interleaves them. -/

/-- Launch/completion events of the collection phase. -/
inductive CEv where
  | start (id : String)
  | finish (id : String)
deriving DecidableEq, Repr

/-- chatbot.py `get_expert_opinions` (lines 89-100): the loop awaits
each `arun` before moving on, so each expert's call starts only after
the previous one finished. -/
def seqTrace (experts : List (String × String)) : List CEv :=
  experts.flatMap fun p => [CEv.start p.1, CEv.finish p.1]

/-- chatbot3.py `get_integrated_response` (lines 81-89): every task is
created first, then `asyncio.gather` awaits them jointly — all N calls
are dispatched before the barrier, and completions (`completions`, in
schedule order) happen while all are in flight. -/
def gatherTrace (experts : List (String × String)) (completions : List String) :
    List CEv :=
  (experts.map fun p => CEv.start p.1) ++ completions.map CEv.finish

/-- Scan of a trace, left to right, carrying whether a completion has
been seen; fails as soon as a launch occurs after a completion. -/
def fanOutScan : Bool → List CEv → Bool
  | _, [] => true
  | seenFinish, CEv.start _ :: rest => !seenFinish && fanOutScan seenFinish rest
  | _, CEv.finish _ :: rest => fanOutScan true rest

/-- A trace is a concurrent fan-out when no call is launched after some
call has already completed: scanning left to right, once a `finish` is
seen no further `start` may occur. -/
def concurrentFanOut (trace : List CEv) : Bool :=
  fanOutScan false trace

/-! ## Spec-side rendering of the opinions block (for refinement) -/

/-- Modelled from the spec (§4.4): one block, "headed by the expert's
identifier (uppercased …) followed by that expert's opinion text". -/
def specBlock (p : String × String) : String :=
  pyUpper p.1 ++ "の意見:" ++ "\n" ++ p.2

/-- Modelled from the spec (§4.4): "opinions are rendered in
registration order as a sequence of blocks … blocks separated by a
blank line". -/
def specOpinionsBlock : List (String × String) → String
  | [] => ""
  | [p] => specBlock p
  | p :: q :: rest => specBlock p ++ "\n\n" ++ specOpinionsBlock (q :: rest)

/-! ## Lemmas about the gather model -/

/-- Looking an index up in the completion log finds that task's result,
for any schedule that contains the index. -/
theorem runSched_find {α : Type} (tasks : List α) (sched : List Nat) (i : Nat) (r : α)
    (hr : tasks.get? i = some r) (hi : i ∈ sched) :
    (runSched tasks sched).find? (fun p => p.1 == i) = some (i, r) := by
  induction sched with
  | nil => cases hi
  | cons j s ih =>
    rcases List.mem_cons.mp hi with hji | his
    · subst hji
      simp only [runSched, List.filterMap_cons, hr, Option.map_some]
      simp [List.find?]
    · by_cases hij : j = i
      · subst hij
        simp only [runSched, List.filterMap_cons, hr, Option.map_some]
        simp [List.find?]
      · simp only [runSched, List.filterMap_cons]
        cases hj : tasks.get? j with
        | none => exact ih his
        | some r' =>
          simp only [Option.map_some, List.find?]
          have : (j == i) = false := by
            simp [hij]
          simp only [this, Bool.false_eq_true, if_false]
          exact ih his

/-- Range/filterMap form of the identity on lists. -/
theorem filterMap_range_get {α : Type} (l : List α) :
    (List.range l.length).filterMap (fun i => l.get? i) = l := by
  induction l with
  | nil => simp
  | cons a t ih =>
    have hr : List.range (a :: t).length = 0 :: (List.range t.length).map (· + 1) := by
      simp [List.range_succ_eq_map]
    rw [hr, List.filterMap_cons, List.filterMap_map]
    simp only [List.get?_cons_zero]
    have hfun : ((fun i => (a :: t).get? i) ∘ fun x => x + 1) = fun i => t.get? i := by
      funext i
      simp
    rw [hfun, ih]

/-- The modelled `asyncio.gather` returns the task results in submission order for
every complete completion schedule, whatever its order. -/
theorem asyncGather_eq {α : Type} (tasks : List α) (sched : List Nat)
    (hcomplete : ∀ i, i < tasks.length → i ∈ sched) :
    asyncGather tasks sched = tasks := by
  unfold asyncGather gatherAssemble
  have hcongr : ∀ i ∈ List.range tasks.length,
      ((runSched tasks sched).find? (fun p => p.1 == i)).map Prod.snd = tasks.get? i := by
    intro i hi
    have hlt : i < tasks.length := List.mem_range.mp hi
    have hr : tasks.get? i = some (tasks.get ⟨i, hlt⟩) := List.get?_eq_get hlt
    rw [runSched_find tasks sched i _ hr (hcomplete i hlt), hr]
    rfl
  rw [List.filterMap_congr hcongr]
  exact filterMap_range_get tasks

/-! ## Claim theorems -/

/-- C1: for every registry, question, total invoker and complete
completion schedule, the collected opinions of chatbot3's
`get_integrated_response` associate each expert identifier with that
expert's own opinion and are listed in registration order — independent
of the completion schedule; chatbot.py's sequential
`get_expert_opinions` produces the same registration-ordered mapping. -/
theorem collect_registration_order
    (inv : String → String → String) (experts : List (String × String))
    (q : String) (sched : List Nat)
    (hcomplete : ∀ i ∈ List.range experts.length, i ∈ sched) :
    collect3 inv experts q sched = experts.map (fun p => (p.1, inv p.2 q)) ∧
    (collect3 inv experts q sched).map Prod.fst = experts.map Prod.fst ∧
    getExpertOpinions1 inv experts q = experts.map (fun p => (p.1, inv p.2 q)) := by
  have hg : asyncGather (experts.map fun p => inv p.2 q) sched
      = experts.map fun p => inv p.2 q := by
    apply asyncGather_eq
    intro i hi
    exact hcomplete i (List.mem_range.mpr (by simpa using hi))
  have hc : collect3 inv experts q sched = experts.map (fun p => (p.1, inv p.2 q)) := by
    unfold collect3
    rw [hg, List.zip_map']
  refine ⟨hc, ?_, rfl⟩
  rw [hc, List.map_map]
  rfl

/-- C1 witness: the spec §8 scenario — registry `a`/`b`, stub invoker
`description ++ ": yes"`, completion schedule reversed (expert `b`
finishes first) — still yields the registration-ordered pairing. -/
theorem collect_registration_order_witness :
    collect3 (fun desc _ => desc ++ ": yes")
        [("a", "loves cats"), ("b", "loves dogs")] "pick a pet" [1, 0]
      = [("a", "loves cats: yes"), ("b", "loves dogs: yes")] := by
  have h := collect_registration_order (fun desc _ => desc ++ ": yes")
    [("a", "loves cats"), ("b", "loves dogs")] "pick a pet" [1, 0] (by decide)
  rw [h.1]
  rfl

/-- A gather over tasks that all succeed returns some result list. -/
theorem gatherE_ok {α : Type} (rs : List (Except Err α))
    (h : ∀ r ∈ rs, r.isOk = true) : ∃ vs, gatherE rs = .ok vs := by
  induction rs with
  | nil => exact ⟨[], rfl⟩
  | cons r rest ih =>
    obtain ⟨vs, hvs⟩ := ih fun r hr => h r (List.mem_cons_of_mem _ hr)
    cases r with
    | error e =>
      have := h _ (List.mem_cons_self _ _)
      simp [Except.isOk, Except.toBool] at this
    | ok a => exact ⟨a :: vs, by simp [gatherE, hvs, Except.map]⟩

/-- A gather over tasks one of which fails propagates some exception. -/
theorem gatherE_error {α : Type} (rs : List (Except Err α))
    (h : ∃ r ∈ rs, r.isOk = false) : ∃ e, gatherE rs = .error e := by
  induction rs with
  | nil => simp at h
  | cons r rest ih =>
    cases r with
    | error e => exact ⟨e, rfl⟩
    | ok a =>
      obtain ⟨r', hr', hr'bad⟩ := h
      rcases List.mem_cons.mp hr' with hhead | htail
      · subst hhead; simp [Except.isOk, Except.toBool] at hr'bad
      · obtain ⟨e, he⟩ := ih ⟨r', htail, hr'bad⟩
        exact ⟨e, by simp [gatherE, he, Except.map]⟩

/-- C2 counterexample: three experts whose second invoker call fails
deterministically.  The claim says collection still returns a result
for every other expert, marking the second as an error, without
raising; in fact `asyncio.gather` propagates the exception out of
`get_integrated_response`, so collection raises and yields no opinion
list at all. -/
theorem collect_failure_counterexample :
    collectE
        (fun desc _ => if desc = "db" then .error (Err.invokerError "timeout")
                       else .ok (desc ++ ": ok"))
        [("a", "da"), ("b", "db"), ("c", "dc")] "q"
      = .error (Err.invokerError "timeout") ∧
    ∀ res, collectE
        (fun desc _ => if desc = "db" then .error (Err.invokerError "timeout")
                       else .ok (desc ++ ": ok"))
        [("a", "da"), ("b", "db"), ("c", "dc")] "q"
      ≠ .ok res := by
  refine ⟨rfl, ?_⟩
  intro res h
  rw [(rfl : collectE
        (fun desc _ => if desc = "db" then .error (Err.invokerError "timeout")
                       else .ok (desc ++ ": ok"))
        [("a", "da"), ("b", "db"), ("c", "dc")] "q"
      = .error (Err.invokerError "timeout"))] at h
  exact Except.noConfusion h

/-- C2 amended: if any expert's invoker call fails, the exception
propagates — the collection and the whole `get_integrated_response`
return an error, no per-expert error marker is recorded, and the
synthesis call (hence its placeholder rendering) never happens: the
call trace contains exactly the expert dispatches. -/
theorem collect_failure_propagates
    (inv : String → String → Except Err String)
    (synthInv : String → Except Err String)
    (experts : List (String × String)) (q : String)
    (hfail : ∃ p ∈ experts, (inv p.2 q).isOk = false) :
    (∃ e, collectE inv experts q = .error e) ∧
    (∃ e, (run3 inv synthInv experts q).1 = .error e) ∧
    (run3 inv synthInv experts q).2 = experts.map fun p => Ev.expertCall p.1 := by
  obtain ⟨p, hp, hbad⟩ := hfail
  obtain ⟨e, he⟩ := gatherE_error (experts.map fun p => inv p.2 q)
    ⟨inv p.2 q, List.mem_map.mpr ⟨p, hp, rfl⟩, hbad⟩
  have hcoll : collectE inv experts q = .error e := by
    simp [collectE, he, Except.map]
  exact ⟨⟨e, hcoll⟩, ⟨e, by simp [run3, hcoll]⟩, by simp [run3, hcoll]⟩

/-- C2 amended witness: the concrete three-expert panel with the second
invoker failing — `run3` surfaces the error and its trace holds the
three expert dispatches and no synthesis call. -/
theorem collect_failure_propagates_witness :
    (∃ e, (run3
        (fun desc _ => if desc = "db" then .error (Err.invokerError "timeout")
                       else .ok (desc ++ ": ok"))
        (fun _ => .ok "summary")
        [("a", "da"), ("b", "db"), ("c", "dc")] "q").1 = .error e) ∧
    (run3
        (fun desc _ => if desc = "db" then .error (Err.invokerError "timeout")
                       else .ok (desc ++ ": ok"))
        (fun _ => .ok "summary")
        [("a", "da"), ("b", "db"), ("c", "dc")] "q").2
      = [Ev.expertCall "a", Ev.expertCall "b", Ev.expertCall "c"] := by
  have h := collect_failure_propagates
    (fun desc _ => if desc = "db" then .error (Err.invokerError "timeout")
                   else .ok (desc ++ ": ok"))
    (fun _ => .ok "summary")
    [("a", "da"), ("b", "db"), ("c", "dc")] "q"
    (by decide)
  exact ⟨h.2.1, by rw [h.2.2]; rfl⟩

/-- A sequential collection loop over all-succeeding experts returns
some opinion list and dispatches one call per expert, in order. -/
theorem collect1_ok (inv : String → String → Except Err String) (q : String) :
    ∀ experts : List (String × String),
      (∀ p ∈ experts, (inv p.2 q).isOk = true) →
      ∃ ops, collect1 inv q experts
        = (.ok ops, experts.map fun p => Ev.expertCall p.1)
  | [], _ => ⟨[], rfl⟩
  | p :: rest, h => by
    have hp := h p (List.mem_cons_self _ _)
    cases hv : inv p.2 q with
    | error e => rw [hv] at hp; simp [Except.isOk, Except.toBool] at hp
    | ok v =>
      obtain ⟨ops, hrest⟩ :=
        collect1_ok inv q rest fun x hx => h x (List.mem_cons_of_mem _ hx)
      exact ⟨(p.1, v) :: ops, by simp [collect1, hv, hrest]⟩

/-- A sequential collection loop with some failing expert raises. -/
theorem collect1_error (inv : String → String → Except Err String) (q : String) :
    ∀ experts : List (String × String),
      (∃ p ∈ experts, (inv p.2 q).isOk = false) →
      ∃ e, (collect1 inv q experts).1 = .error e
  | [], h => by simp at h
  | p :: rest, h => by
    cases hv : inv p.2 q with
    | error e => exact ⟨e, by simp [collect1, hv]⟩
    | ok v =>
      have htail : ∃ x ∈ rest, (inv x.2 q).isOk = false := by
        obtain ⟨x, hx, hxbad⟩ := h
        rcases List.mem_cons.mp hx with rfl | hx
        · rw [hv] at hxbad; simp [Except.isOk, Except.toBool] at hxbad
        · exact ⟨x, hx, hxbad⟩
      obtain ⟨e, he⟩ := collect1_error inv q rest htail
      refine ⟨e, ?_⟩
      cases hc : collect1 inv q rest with
      | mk fst tr =>
        rw [hc] at he
        simp only at he
        subst he
        simp [collect1, hv, hc]

/-- The sequential loop's trace is one call per expert up to and
including the first failing one (all experts when none fails). -/
theorem collect1_trace (inv : String → String → Except Err String) (q : String) :
    ∀ experts : List (String × String),
      (collect1 inv q experts).2
        = (experts.take
            ((experts.takeWhile fun p => (inv p.2 q).isOk).length + 1)).map
            fun p => Ev.expertCall p.1
  | [] => by simp [collect1]
  | p :: rest => by
    cases hv : inv p.2 q with
    | error e =>
      have hp : (inv p.2 q).isOk = false := by rw [hv]; rfl
      simp only [collect1, hv]
      rw [List.takeWhile_cons, hp]
      simp [List.take_succ_cons]
    | ok v =>
      have hp : (inv p.2 q).isOk = true := by rw [hv]; rfl
      have ih := collect1_trace inv q rest
      have hcons : (collect1 inv q (p :: rest)).2
          = Ev.expertCall p.1 :: (collect1 inv q rest).2 := by
        simp only [collect1, hv]
        cases hc : collect1 inv q rest with
        | mk fst tr => cases fst <;> rfl
      rw [hcons, ih, List.takeWhile_cons, if_pos hp]
      simp [List.take_succ_cons]

/-- C3 counterexample: a three-expert panel whose second invoker call
fails makes zero synthesis calls — not exactly one — and chatbot.py's
sequential variant moreover dispatches only two of the three expert
calls, so the claim's per-invocation counts fail on failing
invocations. -/
theorem panel_call_counts_counterexample :
    ((run3 (fun desc _ => if desc = "db" then .error (Err.invokerError "boom")
                          else .ok (desc ++ ": ok"))
        (fun _ => .ok "summary")
        [("a", "da"), ("b", "db"), ("c", "dc")] "q").2.filter Ev.isSynth).length
      = 0 ∧
    ((run1 (fun desc _ => if desc = "db" then .error (Err.invokerError "boom")
                          else .ok (desc ++ ": ok"))
        (fun _ => .ok "summary")
        [("a", "da"), ("b", "db"), ("c", "dc")] "q").2.filter Ev.isExpert).length
      = 2 ∧
    ((run1 (fun desc _ => if desc = "db" then .error (Err.invokerError "boom")
                          else .ok (desc ++ ": ok"))
        (fun _ => .ok "summary")
        [("a", "da"), ("b", "db"), ("c", "dc")] "q").2.filter Ev.isSynth).length
      = 0 ∧
    ([("a", "da"), ("b", "db"), ("c", "dc")] : List (String × String)).length
      = 3 :=
  ⟨rfl, rfl, rfl, rfl⟩

/-- C3 amended: a panel invocation makes one synthesis call exactly
when every expert call succeeds (and then the synthesis call is
dispatched last, strictly after all N expert calls; no retries, no
caching); when any expert call fails, zero synthesis calls are made.
chatbot3's gather always dispatches all N expert calls, while
chatbot.py's sequential loop dispatches only the experts up to and
including the first failing one. -/
theorem panel_call_counts
    (inv : String → String → Except Err String)
    (synthInv : String → Except Err String)
    (experts : List (String × String)) (q : String) :
    (run3 inv synthInv experts q).2
      = (experts.map fun p => Ev.expertCall p.1)
        ++ (if experts.all (fun p => (inv p.2 q).isOk) then [Ev.synthCall]
            else []) ∧
    ((run3 inv synthInv experts q).2.filter Ev.isExpert).length
      = experts.length ∧
    ((run3 inv synthInv experts q).2.filter Ev.isSynth).length
      = (if experts.all (fun p => (inv p.2 q).isOk) then 1 else 0) ∧
    (run1 inv synthInv experts q).2
      = (collect1 inv q experts).2
        ++ (if experts.all (fun p => (inv p.2 q).isOk) then [Ev.synthCall]
            else []) ∧
    (collect1 inv q experts).2
      = ((experts.take
          ((experts.takeWhile fun p => (inv p.2 q).isOk).length + 1)).map
          fun p => Ev.expertCall p.1) ∧
    ((run1 inv synthInv experts q).2.filter Ev.isSynth).length
      = (if experts.all (fun p => (inv p.2 q).isOk) then 1 else 0) := by
  cases hall : experts.all fun p => (inv p.2 q).isOk with
  | true =>
    have hok : ∀ p ∈ experts, (inv p.2 q).isOk = true := List.all_eq_true.mp hall
    obtain ⟨vs, hvs⟩ := gatherE_ok (experts.map fun p => inv p.2 q)
      (by intro r hr; obtain ⟨p, hp, rfl⟩ := List.mem_map.mp hr; exact hok p hp)
    have hcoll : collectE inv experts q = .ok ((experts.map Prod.fst).zip vs) := by
      simp [collectE, hvs, Except.map]
    have htr3 : (run3 inv synthInv experts q).2
        = (experts.map fun p => Ev.expertCall p.1) ++ [Ev.synthCall] := by
      simp only [run3, hcoll]
      cases synthInv (buildSummaryPrompt q
          (formatOpinions ((experts.map Prod.fst).zip vs))) <;> rfl
    obtain ⟨ops, hops⟩ := collect1_ok inv q experts hok
    have h2 : (collect1 inv q experts).2
        = experts.map fun p => Ev.expertCall p.1 := by rw [hops]
    have htr1 : (run1 inv synthInv experts q).2
        = (collect1 inv q experts).2 ++ [Ev.synthCall] := by
      simp only [run1, hops]
      cases synthInv (buildSummaryPrompt q (formatOpinions ops)) <;> simp [h2]
    refine ⟨by rw [htr3]; simp, ?_, ?_, by rw [htr1]; simp,
      collect1_trace inv q experts, ?_⟩
    · rw [htr3, List.filter_append, List.filter_map]
      simp [Ev.isExpert, Function.comp]
    · rw [htr3, List.filter_append, List.filter_map]
      simp [Ev.isSynth, Function.comp]
    · rw [htr1, h2, List.filter_append, List.filter_map]
      simp [Ev.isSynth, Function.comp]
  | false =>
    have hex : ∃ p ∈ experts, (inv p.2 q).isOk = false := by
      obtain ⟨x, hx, hxf⟩ := List.all_eq_false.mp hall
      exact ⟨x, hx, by revert hxf; cases (inv x.2 q).isOk <;> simp⟩
    obtain ⟨p, hp, hbad⟩ := hex
    obtain ⟨e, he⟩ := gatherE_error (experts.map fun x => inv x.2 q)
      ⟨inv p.2 q, List.mem_map.mpr ⟨p, hp, rfl⟩, hbad⟩
    have hcoll : collectE inv experts q = .error e := by
      simp [collectE, he, Except.map]
    have htr3 : (run3 inv synthInv experts q).2
        = experts.map fun p => Ev.expertCall p.1 := by simp [run3, hcoll]
    obtain ⟨e1, he1⟩ := collect1_error inv q experts ⟨p, hp, hbad⟩
    have htr1 : (run1 inv synthInv experts q).2 = (collect1 inv q experts).2 := by
      cases hc : collect1 inv q experts with
      | mk fst tr =>
        rw [hc] at he1
        simp only at he1
        subst he1
        simp [run1, hc]
    have hnosynth : (collect1 inv q experts).2.filter Ev.isSynth = [] := by
      rw [collect1_trace inv q experts, List.filter_map]
      simp [Ev.isSynth, Function.comp]
    refine ⟨by rw [htr3]; simp, ?_, ?_, by rw [htr1]; simp, collect1_trace inv q experts, ?_⟩
    · rw [htr3, List.filter_map]
      simp [Ev.isExpert, Function.comp]
    · rw [htr3, List.filter_map]
      simp [Ev.isSynth, Function.comp]
    · rw [htr1, hnosynth]
      rfl

/-- C4 counterexample: submitting an empty question does not fail with
any error — the walrus guard `if prompt := st.chat_input(...)` treats
the empty string as falsy and the handler silently does nothing (no
`EmptyQuestionError` exists anywhere in the source).  Zero invoker
calls are made, but no error is surfaced either. -/
theorem empty_question_counterexample :
    (chatHandler3 "sk-test" defaultExperts
        (fun desc _ => .ok (desc ++ ": yes")) (fun _ => .ok "summary")
        (some "")).1 = Outcome.noInput ∧
    Outcome.isError (chatHandler3 "sk-test" defaultExperts
        (fun desc _ => .ok (desc ++ ": yes")) (fun _ => .ok "summary")
        (some "")).1 = false ∧
    (chatHandler3 "sk-test" defaultExperts
        (fun desc _ => .ok (desc ++ ": yes")) (fun _ => .ok "summary")
        (some "")).2 = [] :=
  ⟨rfl, rfl, rfl⟩

/-- C4 amended: an empty question is silently ignored — the handler
does nothing, surfaces no error, and makes zero invoker calls; an empty
registry (with a question and API key present) surfaces the
`st.error` message `少なくとも1人の専門家を設定してください！` and
likewise makes zero invoker calls. -/
theorem empty_inputs_make_no_calls
    (apiKey q : String) (experts : List (String × String))
    (inv : String → String → Except Err String)
    (synthInv : String → Except Err String)
    (hk : apiKey ≠ "") (hq : q ≠ "") :
    chatHandler3 apiKey experts inv synthInv (some "") = (.noInput, []) ∧
    chatHandler3 apiKey experts inv synthInv none = (.noInput, []) ∧
    chatHandler3 apiKey [] inv synthInv (some q)
      = (.uiError "少なくとも1人の専門家を設定してください！", []) := by
  refine ⟨by simp [chatHandler3], rfl, ?_⟩
  simp [chatHandler3, hq, hk]

/-- C4 amended witness: the concrete instantiation with a set API key
and the question `pick a pet`. -/
theorem empty_inputs_make_no_calls_witness :
    chatHandler3 "sk-test" defaultExperts
        (fun desc _ => .ok (desc ++ ": yes")) (fun _ => .ok "summary")
        (some "") = (.noInput, []) ∧
    chatHandler3 "sk-test" []
        (fun desc _ => .ok (desc ++ ": yes")) (fun _ => .ok "summary")
        (some "pick a pet")
      = (.uiError "少なくとも1人の専門家を設定してください！", []) := by
  have h := empty_inputs_make_no_calls "sk-test" "pick a pet" defaultExperts
    (fun desc _ => .ok (desc ++ ": yes")) (fun _ => .ok "summary")
    (by decide) (by decide)
  exact ⟨h.1, h.2.2⟩

/-- The source's per-expert block equals the spec's block rendering. -/
theorem specBlock_eq (p : String × String) :
    pyUpper p.1 ++ "の意見:\n" ++ p.2 = specBlock p := by
  unfold specBlock
  rw [String.append_assoc (pyUpper p.1) "の意見:" "\n"]
  rfl

/-- The source's formatted opinions string is exactly the spec's
block sequence: registration order, uppercased-identifier headers,
blank-line separation. -/
theorem formatOpinions_eq_spec : ∀ ops, formatOpinions ops = specOpinionsBlock ops
  | [] => rfl
  | [p] => by
    unfold formatOpinions specOpinionsBlock
    simp only [List.map_cons, List.map_nil, pyJoin]
    exact specBlock_eq p
  | p :: q :: rest => by
    have ih := formatOpinions_eq_spec (q :: rest)
    unfold formatOpinions specOpinionsBlock
    simp only [List.map_cons, pyJoin]
    unfold formatOpinions at ih
    simp only [List.map_cons] at ih
    rw [ih, specBlock_eq p]

/-- C5 amended: for every opinions mapping the synthesizer's block is
rendered in registration order as blocks headed by the uppercased
identifier and separated by a blank line (the spec's formatting rule),
but in the synthesis prompt the echoed question text comes first and
the formatted opinions block follows it. -/
theorem synthesis_prompt_layout (ops : List (String × String)) (q : String) :
    formatOpinions ops = specOpinionsBlock ops ∧
    buildSummaryPrompt q (formatOpinions ops)
      = summaryTemplatePre ++ q ++ summaryTemplateMid
          ++ formatOpinions ops ++ summaryTemplatePost :=
  ⟨formatOpinions_eq_spec ops, rfl⟩

/-- Splitting a list at an element that occurs in neither prefix is
unambiguous. -/
theorem append_cons_eq_of_not_mem {α : Type} (x : α) :
    ∀ (u w v z : List α), u ++ x :: v = w ++ x :: z → x ∉ u → x ∉ w → u = w
  | [], [], _, _, _, _, _ => rfl
  | [], b :: w, v, z, h, _, hw => by
    rw [List.nil_append, List.cons_append] at h
    cases h
    exact absurd (List.mem_cons_self _ _) hw
  | a :: u, [], v, z, h, hu, _ => by
    rw [List.nil_append, List.cons_append] at h
    cases h
    exact absurd (List.mem_cons_self _ _) hu
  | a :: u, b :: w, v, z, h, hu, hw => by
    rw [List.cons_append, List.cons_append] at h
    obtain ⟨hab, htail⟩ := List.cons.inj h
    subst hab
    rw [append_cons_eq_of_not_mem x u w v z htail
      (fun hm => hu (List.mem_cons_of_mem _ hm))
      (fun hm => hw (List.mem_cons_of_mem _ hm))]

/-- C5 counterexample: with the one-expert registry `p` answering `P`
and the question `Q`, the synthesis prompt admits no decomposition in
which the formatted opinions block precedes the echoed question — the
template places the question first. -/
theorem opinions_before_question_counterexample :
    ¬ ∃ a b c : List Char,
      (buildSummaryPrompt "Q" (formatOpinions [("p", "P")])).data
        = a ++ (formatOpinions [("p", "P")]).data ++ b ++ "Q".data ++ c := by
  rintro ⟨a, b, c, h⟩
  have h2 : (buildSummaryPrompt "Q" (formatOpinions [("p", "P")])).data
      = (a ++ (formatOpinions [("p", "P")]).data ++ b) ++ 'Q' :: c := by
    rw [h]
    simp [List.append_assoc]
  have hsplit : (buildSummaryPrompt "Q" (formatOpinions [("p", "P")])).data
      = summaryTemplatePre.data ++ 'Q' ::
          (summaryTemplateMid.data ++ (formatOpinions [("p", "P")]).data
            ++ summaryTemplatePost.data) := by
    rfl
  have hcount : ((buildSummaryPrompt "Q" (formatOpinions [("p", "P")])).data).count 'Q'
      = 1 := by
    rfl
  have hQleft : 'Q' ∉ a ++ (formatOpinions [("p", "P")]).data ++ b := by
    rw [h2, List.count_append, List.count_cons, if_pos (beq_self_eq_true 'Q')] at hcount
    intro hmem
    have hpos := List.count_pos_iff.mpr hmem
    omega
  have hQpre : 'Q' ∉ summaryTemplatePre.data := by decide
  have heq : a ++ (formatOpinions [("p", "P")]).data ++ b = summaryTemplatePre.data :=
    append_cons_eq_of_not_mem 'Q' _ _ _ _ (h2.symm.trans hsplit) hQleft hQpre
  have hP : 'P' ∈ a ++ (formatOpinions [("p", "P")]).data ++ b := by
    have hPblock : 'P' ∈ (formatOpinions [("p", "P")]).data := by decide
    exact List.mem_append.mpr (Or.inl (List.mem_append.mpr (Or.inr hPblock)))
  rw [heq] at hP
  exact absurd hP (by decide)

/-- A pure completion segment never breaks the fan-out scan. -/
theorem fanOutScan_finishes (completions : List String) :
    ∀ flag, fanOutScan flag (completions.map CEv.finish) = true := by
  induction completions with
  | nil => intro flag; rfl
  | cons c rest ih => intro flag; simpa [fanOutScan] using ih true

/-- C6 counterexample: chatbot.py's `get_expert_opinions` — one of the
two collectors the claim covers — awaits its experts one after another:
already on the default four-expert registry its trace launches a call
after an earlier call completed, so the calls are not all launched
concurrently. -/
theorem sequential_collection_counterexample :
    concurrentFanOut (seqTrace defaultExperts) = false ∧
    seqTrace defaultExperts
      = [CEv.start "business_analyst", CEv.finish "business_analyst",
         CEv.start "tech_expert", CEv.finish "tech_expert",
         CEv.start "risk_manager", CEv.finish "risk_manager",
         CEv.start "customer_advocate", CEv.finish "customer_advocate"] :=
  ⟨rfl, rfl⟩

/-- C6 amended: chatbot3.py's gather-based collection is a true
concurrent fan-out — every expert call is launched before any call
completes, whatever the completion order — whereas chatbot.py's
`get_expert_opinions` awaits its calls sequentially one after another
(exhibited on its default registry). -/
theorem fanout_concurrency (experts : List (String × String))
    (completions : List String) :
    concurrentFanOut (gatherTrace experts completions) = true ∧
    concurrentFanOut (seqTrace defaultExperts) = false := by
  refine ⟨?_, rfl⟩
  unfold concurrentFanOut gatherTrace
  induction experts with
  | nil => simpa using fanOutScan_finishes completions false
  | cons p rest ih => simpa [fanOutScan] using ih

/-- Export then re-read of one chatbot3 registry entry list. -/
theorem asStrEntries_export (r : List (String × String)) :
    asStrEntries (r.map fun p => (p.1, Json.str p.2)) = some r := by
  induction r with
  | nil => rfl
  | cons p rest ih =>
    simp only [List.map_cons, asStrEntries, ih, Prod.mk.eta]
    rfl

/-- Re-reading one exported chatbot4 entry restores it. -/
theorem asExpertInfo_export (e : ExpertInfo) :
    asExpertInfo (exportExpert4 e) = some e := rfl

/-- Export then re-read of one chatbot4 registry entry list. -/
theorem asInfoEntries_export (r : List (String × ExpertInfo)) :
    asInfoEntries (r.map fun p => (p.1, exportExpert4 p.2)) = some r := by
  induction r with
  | nil => rfl
  | cons p rest ih =>
    simp only [List.map_cons, asInfoEntries, asExpertInfo_export, ih, Prod.mk.eta]
    rfl

/-- C7: importing the snapshot produced by export yields a registry
with the same identifiers, the same descriptions (and, for chatbot4,
the same avatar and display-name fields), in the same iteration order —
for both the chatbot3 string registry and the chatbot4 field-dict
registry. -/
theorem snapshot_roundtrip (r3 : List (String × String))
    (r4 : List (String × ExpertInfo)) :
    asStrDict (exportSnapshot3 r3) = some r3 ∧
    asInfoDict (exportSnapshot4 r4) = some r4 ∧
    (importExperts (exportSnapshot3 defaultExperts) (some (exportSnapshot3 r3))).1
      = exportSnapshot3 r3 :=
  ⟨asStrEntries_export r3, asInfoEntries_export r4, rfl⟩

/-- C8 counterexample: a structurally malformed snapshot — its only
entry lacks the required `description` field — is imported without any
error and replaces the whole registry, which the claim says must be
rejected with `InvalidSnapshotError` and leave the registry unchanged. -/
theorem import_missing_description_counterexample :
    importExperts seedExpertsJson
        (some (Json.obj [("expert_x",
            Json.obj [("name", Json.str "X"), ("avatar", Json.str "★")])]))
      = (Json.obj [("expert_x",
            Json.obj [("name", Json.str "X"), ("avatar", Json.str "★")])], none) ∧
    (Json.obj [("name", Json.str "X"), ("avatar", Json.str "★")]).hasKey
        "description" = false ∧
    Json.obj [("expert_x",
        Json.obj [("name", Json.str "X"), ("avatar", Json.str "★")])]
      ≠ seedExpertsJson := by
  refine ⟨rfl, rfl, ?_⟩
  intro h
  have hl := congrArg
    (fun j => match j with | Json.obj fields => fields.length | _ => 0) h
  simp [seedExpertsJson, exportSnapshot3, defaultExperts] at hl

/-- C8 amended: the expert-settings import performs no structural
validation: every successfully parsed snapshot — malformed or not —
replaces the registry wholesale (so it is indeed never partially
applied), and only a JSON parse failure leaves the registry unchanged,
reporting an import error message rather than an
`InvalidSnapshotError`. -/
theorem import_replaces_wholesale (old j : Json) :
    importExperts old (some j) = (j, none) ∧
    importExperts old none = (old, some "インポートエラー") :=
  ⟨rfl, rfl⟩

/-- C9 counterexample: a config whose `temperature` is 5 — outside the
allowed 0.0–2.0 range — passes the import's key-presence check and
replaces the config, which the claim says must be rejected. -/
theorem config_import_range_counterexample :
    importModelConfig seedModelConfig
        (some (Json.obj [("model_name", Json.str "gpt-4o-mini"),
                         ("temperature", Json.num 5)]))
      = (Json.obj [("model_name", Json.str "gpt-4o-mini"),
                   ("temperature", Json.num 5)], true) ∧
    (Json.obj [("model_name", Json.str "gpt-4o-mini"),
               ("temperature", Json.num 5)]).getItem "temperature"
      = .ok (Json.num 5) ∧
    ¬ ((0 : Rat) ≤ 5 ∧ (5 : Rat) ≤ 2) := by
  refine ⟨rfl, rfl, ?_⟩
  rintro ⟨-, h⟩
  norm_num at h

/-- C9 amended: the model-config import reports success exactly when
the parsed document answers Python's `in` membership test for both
`model_name` and `temperature` — key membership for a dict (with no
type or range check on the values), element membership for an array,
so the keyless array `["model_name", "temperature"]` is accepted and
replaces the config — while a failed membership test, a `TypeError`
on a non-container document, or a JSON parse failure reports an error
and leaves the prior config unchanged. -/
theorem config_import_key_check (old : Json) (fields : List (String × Json)) :
    importModelConfig old (some (Json.obj fields))
      = (if (fields.any fun p => p.1 == "model_name")
            && (fields.any fun p => p.1 == "temperature")
         then (Json.obj fields, true) else (old, false)) ∧
    importModelConfig old
        (some (Json.arr [Json.str "model_name", Json.str "temperature"]))
      = (Json.arr [Json.str "model_name", Json.str "temperature"], true) ∧
    (Json.arr [Json.str "model_name", Json.str "temperature"]).hasKey
        "model_name" = false ∧
    importModelConfig old (some (Json.num 1)) = (old, false) ∧
    importModelConfig old none = (old, false) := by
  refine ⟨?_, rfl, rfl, rfl, rfl⟩
  simp only [importModelConfig, Json.pyContains]
  cases h1 : fields.any fun p => p.1 == "model_name" <;>
    cases h2 : fields.any fun p => p.1 == "temperature" <;>
      simp [h1, h2]

/-- An object field lookup can only fail with a `KeyError` naming the
looked-up key. -/
theorem getItem_obj_error (fields : List (String × Json)) (k : String) (e : Err)
    (h : (Json.obj fields).getItem k = .error e) : e = .keyError k := by
  simp only [Json.getItem] at h
  split at h
  · cases h
  · cases h; rfl

/-- A field lookup on an object lacking the key raises that
`KeyError`. -/
theorem getItem_of_hasKey_false (fields : List (String × Json)) (k : String)
    (h : (Json.obj fields).hasKey k = false) :
    (Json.obj fields).getItem k = .error (.keyError k) := by
  simp only [Json.hasKey] at h
  simp only [Json.getItem]
  split
  next p hp =>
    exfalso
    have hbeq := List.find?_some hp
    have hmem := List.mem_of_find?_eq_some hp
    have htrue : (fields.any fun p => p.1 == k) = true :=
      List.any_eq_true.mpr ⟨p, hmem, hbeq⟩
    rw [htrue] at h
    cases h
  next hp => rfl

/-- Mapping over an `Except` preserves `isOk`. -/
theorem isOk_map {α β : Type} (f : α → β) (r : Except Err α) :
    (Except.map f r).isOk = r.isOk := by
  cases r <;> rfl

/-- Construction succeeds exactly when every registry value answers the
`description` lookup. -/
theorem initExperts4_isOk (experts : List (String × Json)) :
    (initExperts4 experts).isOk = true ↔
      ∀ p ∈ experts, (p.2.getItem "description").isOk = true := by
  induction experts with
  | nil => simp [initExperts4, Except.isOk, Except.toBool]
  | cons x rest ih =>
    constructor
    · intro h y hy
      cases hd : x.2.getItem "description" with
      | error e => simp [initExperts4, hd, Except.isOk, Except.toBool] at h
      | ok d =>
        rcases List.mem_cons.mp hy with hy | hy
        · rw [hy, hd]; rfl
        · have h' : (initExperts4 rest).isOk = true := by
            rw [initExperts4, hd, isOk_map] at h
            exact h
          exact ih.mp h' y hy
    · intro h
      have hd := h x (List.mem_cons_self _ _)
      cases hdi : x.2.getItem "description" with
      | error e => rw [hdi] at hd; cases hd
      | ok d =>
        have h' := ih.mpr fun y hy => h y (List.mem_cons_of_mem _ hy)
        rw [initExperts4, hdi, isOk_map]
        exact h'

/-- A registry of objects among which some entry lacks `description`
makes the construction comprehension raise `KeyError("description")`. -/
theorem initExperts4_missing (experts : List (String × Json))
    (hobj : ∀ p ∈ experts, ∃ fields, p.2 = Json.obj fields)
    (hmiss : ∃ p ∈ experts, p.2.hasKey "description" = false) :
    initExperts4 experts = .error (Err.keyError "description") := by
  induction experts with
  | nil => simp at hmiss
  | cons p rest ih =>
    obtain ⟨fields, hf⟩ := hobj p (List.mem_cons_self _ _)
    cases hd : p.2.getItem "description" with
    | error e =>
      have : e = .keyError "description" := by
        rw [hf] at hd
        exact getItem_obj_error fields "description" e hd
      rw [initExperts4, hd, this]
    | ok d =>
      have htail : ∃ q ∈ rest, q.2.hasKey "description" = false := by
        obtain ⟨q, hq, hqbad⟩ := hmiss
        rcases List.mem_cons.mp hq with hq | hq
        · subst hq
          rw [hf] at hqbad hd
          rw [getItem_of_hasKey_false fields "description" hqbad] at hd
          cases hd
        · exact ⟨q, hq, hqbad⟩
      have := ih (fun q hq => hobj q (List.mem_cons_of_mem _ hq)) htail
      rw [initExperts4, hd, this]
      rfl

/-- C10: chatbot4's `ExpertPanelChatbot` construction succeeds exactly
when every registry value answers the `description` lookup; when the
values are dicts and any one lacks the key — as an unvalidated imported
snapshot can — construction raises `KeyError("description")` and the
whole panel invocation fails with that error before any invoker call
(its call trace is empty). -/
theorem construction_requires_description
    (experts : List (String × Json)) (q : String)
    (inv : Json → String → Except Err String)
    (synthInv : String → Except Err String)
    (hobj : ∀ p ∈ experts, ∃ fields, p.2 = Json.obj fields)
    (hmiss : ∃ p ∈ experts, p.2.hasKey "description" = false) :
    initExperts4 experts = .error (Err.keyError "description") ∧
    run4 inv synthInv experts q = (.error (Err.keyError "description"), []) ∧
    ∀ experts2 : List (String × Json),
      (initExperts4 experts2).isOk = true ↔
        ∀ p ∈ experts2, (p.2.getItem "description").isOk = true := by
  have h1 := initExperts4_missing experts hobj hmiss
  exact ⟨h1, by simp [run4, h1], initExperts4_isOk⟩

/-- C10 witness: a registry imported with one well-formed entry and one
entry missing `description` — construction raises and the invocation
makes zero invoker calls. -/
theorem construction_requires_description_witness :
    initExperts4
        [("graph_specialist",
          Json.obj [("description", Json.str "グラフ構造の専門家。"),
                    ("avatar", Json.str "🕸"), ("name", Json.str "グラフ理論専門家")]),
         ("broken_expert", Json.obj [("name", Json.str "X")])]
      = .error (Err.keyError "description") ∧
    run4 (fun _ _ => .ok "opinion") (fun _ => .ok "summary")
        [("graph_specialist",
          Json.obj [("description", Json.str "グラフ構造の専門家。"),
                    ("avatar", Json.str "🕸"), ("name", Json.str "グラフ理論専門家")]),
         ("broken_expert", Json.obj [("name", Json.str "X")])] "q"
      = (.error (Err.keyError "description"), []) := by
  have h := construction_requires_description
    [("graph_specialist",
      Json.obj [("description", Json.str "グラフ構造の専門家。"),
                ("avatar", Json.str "🕸"), ("name", Json.str "グラフ理論専門家")]),
     ("broken_expert", Json.obj [("name", Json.str "X")])] "q"
    (fun _ _ => .ok "opinion") (fun _ => .ok "summary")
    (by
      intro p hp
      rcases List.mem_cons.mp hp with h | hp2
      · exact ⟨_, by rw [h]⟩
      · rcases List.mem_cons.mp hp2 with h | h
        · exact ⟨_, by rw [h]⟩
        · cases h)
    ⟨("broken_expert", Json.obj [("name", Json.str "X")]),
      List.mem_cons_of_mem _ (List.mem_cons_self _ _), rfl⟩
  exact ⟨h.1, h.2.1⟩

end ExpertAi
